/-
  Verification of the NutriAI meal-recommendation backend
  (ml-backend/recommender/{nutrition_engine,bandit,meal_recommender}.py).

  Shallow embedding: Python floats are modelled as exact rationals (ℚ),
  Python dicts as association lists with overwrite-on-insert semantics,
  pandas DataFrames as lists of row records.  Python's `round(x, 1)`
  (round-half-to-even) is modelled exactly on ℚ.
-/
import Mathlib

namespace NutriAI

/-! ### nutrition_engine.py: data model -/

/-- `Gender = Literal["male", "female"]` (nutrition_engine.py line 9). -/
inductive Gender where
  | male
  | female
deriving DecidableEq, Repr

/-- `ActivityLevel = Literal[...]` (nutrition_engine.py line 7). -/
inductive ActivityLevel where
  | sedentary
  | light
  | moderate
  | very_active
  | extra_active
deriving DecidableEq, Repr

/-- `Goal = Literal["weight_loss", "maintenance", "muscle_gain"]` (line 8). -/
inductive Goal where
  | weight_loss
  | maintenance
  | muscle_gain
deriving DecidableEq, Repr

/-- `Literal["veg", "non-veg"]` for `dietary_pref` (line 23). -/
inductive DietaryPref where
  | veg
  | non_veg
deriving DecidableEq, Repr

/-- `@dataclass UserProfile` (nutrition_engine.py lines 12-24). -/
structure UserProfile where
  user_id : String
  height_cm : ℚ
  weight_kg : ℚ
  age : ℤ
  gender : Gender
  activity_level : ActivityLevel
  goal : Goal := Goal.maintenance
  target_calories : Option ℚ := none
  target_protein_g : Option ℚ := none
  dietary_pref : DietaryPref := DietaryPref.veg
  allergies : Option (List String) := none
deriving DecidableEq, Repr

/-- `UserProfile.bmi` property (lines 26-29): `weight_kg / (height_cm/100)^2`. -/
def UserProfile.bmi (p : UserProfile) : ℚ :=
  let h_m := p.height_cm / 100
  p.weight_kg / (h_m ^ 2)

/-- `@dataclass MacroTargets` (nutrition_engine.py lines 32-37). -/
structure MacroTargets where
  calories : ℚ
  protein_g : ℚ
  carbs_g : ℚ
  fats_g : ℚ
deriving DecidableEq, Repr

/-- `ACTIVITY_MULTIPLIERS` table (nutrition_engine.py lines 40-46). -/
def activityMultiplier : ActivityLevel → ℚ
  | ActivityLevel.sedentary => 6/5
  | ActivityLevel.light => 11/8
  | ActivityLevel.moderate => 31/20
  | ActivityLevel.very_active => 69/40
  | ActivityLevel.extra_active => 19/10

/-! ### Python `round(x, 1)`: round half to even, modelled exactly on ℚ. -/

/-- Round-half-to-even to an integer (Python's `round` on an exact value). -/
def rhe (q : ℚ) : ℤ :=
  let f := ⌊q⌋
  let r := q - f
  if r < 1/2 then f
  else if 1/2 < r then f + 1
  else if f % 2 = 0 then f else f + 1

/-- Python `round(q, 1)` on an exact rational: round `10·q` half-to-even. -/
def round1 (q : ℚ) : ℚ := (rhe (10 * q) : ℚ) / 10

/-! ### nutrition_engine.py: computations -/

/-- `compute_bmr` (nutrition_engine.py lines 49-54): Mifflin-St Jeor. -/
def compute_bmr (p : UserProfile) : ℚ :=
  if p.gender = Gender.male then
    10 * p.weight_kg + (25/4) * p.height_cm - 5 * p.age + 5
  else
    10 * p.weight_kg + (25/4) * p.height_cm - 5 * p.age - 161

/-- `compute_tdee` (lines 57-60): BMR times the activity multiplier. -/
def compute_tdee (p : UserProfile) : ℚ :=
  compute_bmr p * activityMultiplier p.activity_level

/-- `adjust_for_goal` (lines 63-68). -/
def adjust_for_goal (tdee : ℚ) (goal : Goal) : ℚ :=
  match goal with
  | Goal.weight_loss => max 1200 (tdee - 400)
  | Goal.muscle_gain => tdee + 300
  | Goal.maintenance => tdee

/-- `compute_macro_targets` (nutrition_engine.py lines 71-96). -/
def compute_macro_targets (p : UserProfile) : MacroTargets :=
  let tdee := compute_tdee p
  let daily_cals0 := adjust_for_goal tdee p.goal
  let daily_cals :=
    match p.target_calories with
    | some t => t
    | none => daily_cals0
  let protein_g :=
    match p.target_protein_g with
    | some t => t
    | none => (9/5) * p.weight_kg
  let fats_g := (4/5) * p.weight_kg
  let protein_cal := 4 * protein_g
  let fat_cal := 9 * fats_g
  let remaining_cal := max 0 (daily_cals - protein_cal - fat_cal)
  let carbs_g := remaining_cal / 4
  { calories := round1 daily_cals
    protein_g := round1 protein_g
    carbs_g := round1 carbs_g
    fats_g := round1 fats_g }

/-- `MEAL_SHARES` with the `.get(meal_type, 0.25)` default
    (nutrition_engine.py lines 99-104 and 108). -/
def mealShare (meal_type : String) : ℚ :=
  if meal_type = "breakfast" then 1/4
  else if meal_type = "lunch" then 7/20
  else if meal_type = "dinner" then 3/10
  else if meal_type = "snack" then 1/10
  else 1/4

/-- `get_meal_macro_targets` (nutrition_engine.py lines 107-114). -/
def get_meal_macro_targets (daily : MacroTargets) (meal_type : String) :
    MacroTargets :=
  let s := mealShare meal_type
  { calories := daily.calories * s
    protein_g := daily.protein_g * s
    carbs_g := daily.carbs_g * s
    fats_g := daily.fats_g * s }

/-! ### Python dict model: association lists with overwrite-on-insert -/

/-- First-match lookup in an association list (Python `dict.__getitem__`). -/
def lookupAL {α β : Type} [DecidableEq α] (k : α) : List (α × β) → Option β
  | [] => none
  | (k', v) :: t => if k' = k then some v else lookupAL k t

/-- Python `dict.get(k, default)`. -/
def getAL {α β : Type} [DecidableEq α] (m : List (α × β)) (k : α) (dflt : β) :
    β :=
  (lookupAL k m).getD dflt

/-- Python `dict[k] = v`: overwrite an existing binding, else append. -/
def insertAL {α β : Type} [DecidableEq α] (k : α) (v : β) :
    List (α × β) → List (α × β)
  | [] => [(k, v)]
  | (k', v') :: t => if k' = k then (k, v) :: t else (k', v') :: insertAL k v t

/-! ### bandit.py: data model -/

/-- One row of the (normalised) food DataFrame: the columns read by
    `build_context`, `select_dish`, `update` and `generate_weekly_plan`. -/
structure Row where
  dishName : String
  category : String
  vegNonVeg : String
  calories : ℚ
  protein : ℚ
  carbs : ℚ
  fats : ℚ
  price : ℚ
deriving DecidableEq, Repr

/-- `ArmState` (bandit.py lines 13-17): `A` a d×d matrix, `b` a d-vector,
    as list-of-rows / list, mirroring `ndarray.tolist()`. -/
structure ArmState where
  A : List (List ℚ)
  b : List ℚ
deriving DecidableEq, Repr

/-- `np.eye d` as a list of rows. -/
def eyeList (d : ℕ) : List (List ℚ) :=
  (List.range d).map fun i => (List.range d).map fun j => if i = j then 1 else 0

/-- `ArmState.create` (bandit.py lines 19-21): `A = np.eye(d)`, `b = zeros d`. -/
def ArmState.create (d : ℕ) : ArmState :=
  { A := eyeList d, b := List.replicate d 0 }

/-- `LinUCBBandit` state (bandit.py lines 36-43): `state[user][dish]`,
    plus the `likes` / `dislikes` counters keyed by `(user_id, dish)`. -/
structure LinUCBBandit where
  d : ℕ
  alpha : ℚ
  state : List (String × List (String × ArmState))
  likes : List ((String × String) × ℕ)
  dislikes : List ((String × String) × ℕ)
deriving DecidableEq, Repr

/-- Fresh bandit as built by `__init__` (bandit.py lines 36-43). -/
def LinUCBBandit.init (d : ℕ) (alpha : ℚ) : LinUCBBandit :=
  { d := d, alpha := alpha, state := [], likes := [], dislikes := [] }

/-- `_get_user_arms` (bandit.py lines 46-49), read part: the user's arm dict
    (empty when absent). -/
def LinUCBBandit.userArms (bd : LinUCBBandit) (user_id : String) :
    List (String × ArmState) :=
  getAL bd.state user_id []

/-- `_get_user_arms` write-back: store the (possibly new) arm dict. -/
def LinUCBBandit.setUserArms (bd : LinUCBBandit) (user_id : String)
    (arms : List (String × ArmState)) : LinUCBBandit :=
  { bd with state := insertAL user_id arms bd.state }

/-! ### bandit.py: context vector and macro fit -/

/-- `build_context` (bandit.py lines 52-90): the 11-dimensional feature
    vector `[bias, bmi_norm, gender_flag] ++ meal_onehot ++ macro fracs`. -/
def build_context (profile : UserProfile) (daily_targets : MacroTargets)
    (meal_type : String) (dish_row : Row) : List ℚ :=
  let bmi_norm := min (max ((profile.bmi - 15) / 20) 0) 1
  let gender_flag : ℚ := if profile.gender = Gender.male then 1 else 0
  let meal_onehot : List ℚ :=
    ["breakfast", "lunch", "dinner", "snack"].map fun mt =>
      if meal_type = mt then 1 else 0
  let cal_frac := dish_row.calories / max 1 daily_targets.calories
  let prot_frac := dish_row.protein / max 1 daily_targets.protein_g
  let carb_frac := dish_row.carbs / max 1 daily_targets.carbs_g
  let fat_frac := dish_row.fats / max 1 daily_targets.fats_g
  [1, bmi_norm, gender_flag] ++ meal_onehot
    ++ [cal_frac, prot_frac, carb_frac, fat_frac]

/-- `rel_err` inside `compute_macro_fit` (bandit.py lines 103-106). -/
def relErr (v t : ℚ) : ℚ :=
  if t ≤ 0 then 0 else |v - t| / t

/-- `compute_macro_fit` (bandit.py lines 92-115): `max 0 (1 - mean rel_err)`. -/
def compute_macro_fit (meal_targets : MacroTargets)
    (cal prot carbs fats : ℚ) : ℚ :=
  let errs := [relErr cal meal_targets.calories,
               relErr prot meal_targets.protein_g,
               relErr carbs meal_targets.carbs_g,
               relErr fats meal_targets.fats_g]
  let mean_err := errs.sum / 4
  max 0 (1 - mean_err)

/-! ### bandit.py: update -/

/-- The `fb_score` assigned by `update` (bandit.py lines 201-208). -/
def fbScoreOf (feedback : ℤ) : ℚ :=
  if feedback > 0 then 1 else if feedback < 0 then 0 else 1/2

/-- The clamped reward computed by `update` (bandit.py lines 210-219):
    `clamp(0.7·fb_score + 0.3·macro_fit, 0, 1)`. -/
def rewardOf (feedback : ℤ) (daily_targets : MacroTargets)
    (meal_type : String) (dish_row : Row) : ℚ :=
  let meal_targets := get_meal_macro_targets daily_targets meal_type
  let macro_fit := compute_macro_fit meal_targets
    dish_row.calories dish_row.protein dish_row.carbs dish_row.fats
  max 0 (min 1 ((7/10) * fbScoreOf feedback + (3/10) * macro_fit))

/-- `arm.A += x @ x.T` (bandit.py line 226), entrywise on the row list. -/
def matAddOuter (A : List (List ℚ)) (x : List ℚ) : List (List ℚ) :=
  (A.zip x).map fun p => (p.1.zip x).map fun q => q.1 + p.2 * q.2

/-- `arm.b += reward * x` (bandit.py line 227). -/
def vecAddScaled (b : List ℚ) (r : ℚ) (x : List ℚ) : List ℚ :=
  (b.zip x).map fun p => p.1 + r * p.2

/-- `update` (bandit.py lines 180-227): bump the like/dislike counter,
    compute the clamped reward, and do the LinUCB `A`/`b` update. -/
def LinUCBBandit.update (bd : LinUCBBandit) (profile : UserProfile)
    (daily_targets : MacroTargets) (meal_type : String) (dish_row : Row)
    (feedback : ℤ) : LinUCBBandit :=
  let dish_id := dish_row.dishName
  let key := (profile.user_id, dish_id)
  let arms := bd.userArms profile.user_id
  let arms :=
    if (lookupAL dish_id arms).isNone then
      insertAL dish_id (ArmState.create bd.d) arms
    else arms
  let arm := (lookupAL dish_id arms).getD (ArmState.create bd.d)
  let likes :=
    if feedback > 0 then insertAL key (getAL bd.likes key 0 + 1) bd.likes
    else bd.likes
  let dislikes :=
    if feedback > 0 then bd.dislikes
    else if feedback < 0 then
      insertAL key (getAL bd.dislikes key 0 + 1) bd.dislikes
    else bd.dislikes
  let reward := rewardOf feedback daily_targets meal_type dish_row
  let x := build_context profile daily_targets meal_type dish_row
  let arm' : ArmState :=
    { A := matAddOuter arm.A x, b := vecAddScaled arm.b reward x }
  { (bd.setUserArms profile.user_id (insertAL dish_id arm' arms)) with
      likes := likes, dislikes := dislikes }

/-! ### bandit.py: selection

`select_dish` scores each surviving candidate with
`theta·x + alpha·sqrt(x·A⁻¹·x)`.  `np.linalg.inv` is modelled by exact
Gauss-Jordan elimination over ℚ; the float `np.sqrt` is modelled by a
computable rational square-root approximation (`ratSqrt`).  No claim in
this development depends on the numeric values either produces. -/

/-- Dot product of two rational vectors. -/
def dotQ (x y : List ℚ) : ℚ := ((x.zip y).map fun p => p.1 * p.2).sum

/-- Matrix-vector product on the list representation. -/
def matVec (A : List (List ℚ)) (x : List ℚ) : List ℚ :=
  A.map fun r => dotQ r x

/-- Find the first row whose `col`-th entry is nonzero; return it and the
    remaining rows (partial pivoting for Gauss-Jordan). -/
def pivotRow (col : ℕ) : List (List ℚ) → Option (List ℚ × List (List ℚ))
  | [] => none
  | r :: rs =>
    if r.getD col 0 ≠ 0 then some (r, rs)
    else (pivotRow col rs).map fun p => (p.1, r :: p.2)

/-- Subtract `r[col]` times the (pivot-normalised) row `piv` from `r`. -/
def elimRow (col : ℕ) (piv r : List ℚ) : List ℚ :=
  let c := r.getD col 0
  (r.zip piv).map fun p => p.1 - c * p.2

/-- Gauss-Jordan elimination on the augmented rows, one pivot column per
    fuel step, returning fully reduced rows in pivot-column order. -/
def gaussJordan (col fuel : ℕ) (rows : List (List ℚ)) : List (List ℚ) :=
  match fuel with
  | 0 => rows
  | fuel' + 1 =>
    match pivotRow col rows with
    | none => rows.map fun r => List.replicate r.length 0
    | some (p, rest) =>
      let pv := p.getD col 0
      let pnorm := p.map fun a => a / pv
      let rest2 := rest.map (elimRow col pnorm)
      let solvedRest := gaussJordan (col + 1) fuel' rest2
      let pfinal := (List.range solvedRest.length).foldl
        (fun acc i => elimRow (col + 1 + i) (solvedRest.getD i []) acc) pnorm
      pfinal :: solvedRest

/-- `np.linalg.inv` modelled exactly over ℚ: Gauss-Jordan on `[A | I]`. -/
def matInv (n : ℕ) (A : List (List ℚ)) : List (List ℚ) :=
  let aug := (A.zip (eyeList n)).map fun p => p.1 ++ p.2
  (gaussJordan 0 n aug).map fun r => r.drop n

/-- Fuel-driven binary search for the integer square root: the largest
    `r ∈ [lo, hi]` with `r² ≤ n`, assuming `lo² ≤ n`. -/
def sqrtGo : ℕ → ℕ → ℕ → ℕ → ℕ
  | 0, lo, _, _ => lo
  | fuel + 1, lo, hi, n =>
    if hi ≤ lo then lo
    else
      let mid := (lo + hi + 1) / 2
      if mid * mid ≤ n then sqrtGo fuel mid hi n
      else sqrtGo fuel lo (mid - 1) n

/-- Computable stand-in for the float `np.sqrt` on a nonnegative rational:
    `sqrt (n/d) = sqrt (n·d) / d`, computed to 6 decimal digits via an
    integer square root.  Only its computability matters for the claims. -/
def ratSqrt (q : ℚ) : ℚ :=
  if q ≤ 0 then 0
  else
    let m := q.num.toNat * q.den * 10 ^ 12
    (sqrtGo 128 0 m m : ℚ) / (q.den * 10 ^ 6)

/-- `seen = likes.get(key,0) + dislikes.get(key,0)` (bandit.py lines 168-169). -/
def LinUCBBandit.seenCount (bd : LinUCBBandit) (user_id dish_id : String) :
    ℕ :=
  getAL bd.likes (user_id, dish_id) 0 + getAL bd.dislikes (user_id, dish_id) 0

/-- The LinUCB score before the exploration bonus (bandit.py lines 160-165):
    `theta·x + alpha·sqrt(x·A⁻¹·x)`. -/
def armScoreBase (d : ℕ) (alpha : ℚ) (arm : ArmState) (x : List ℚ) : ℚ :=
  let A_inv := matInv d arm.A
  let theta := matVec A_inv arm.b
  dotQ theta x + alpha * ratSqrt (dotQ x (matVec A_inv x))

/-- Score with the flat `+0.05` bonus for never-seen dishes
    (bandit.py lines 167-171). -/
def armScore (d : ℕ) (alpha : ℚ) (arm : ArmState) (x : List ℚ) (seen : ℕ) :
    ℚ :=
  if seen = 0 then armScoreBase d alpha arm x + 1/20
  else armScoreBase d alpha arm x

/-- The hard-constraint filter of `select_dish` (bandit.py lines 132-144):
    drop candidates with a positive dislike counter or a weekly count at the
    cap. -/
def selectFilter (bd : LinUCBBandit) (user_id : String)
    (weekly_counts : List (String × ℕ)) (max_per_week : ℕ)
    (candidates : List Row) : List Row :=
  candidates.filter fun row =>
    ¬ getAL bd.dislikes (user_id, row.dishName) 0 > 0 ∧
    ¬ getAL weekly_counts row.dishName 0 ≥ max_per_week

/-- One iteration of the scoring loop (bandit.py lines 153-175): ensure the
    arm exists, score it, and keep it when the score strictly improves. -/
def scoreStep (bd : LinUCBBandit) (profile : UserProfile)
    (daily_targets : MacroTargets) (meal_type : String)
    (acc : List (String × ArmState) × ℚ × Option Row) (row : Row) :
    List (String × ArmState) × ℚ × Option Row :=
  let (arms, best_score, best_row) := acc
  let x := build_context profile daily_targets meal_type row
  let arms :=
    if (lookupAL row.dishName arms).isNone then
      insertAL row.dishName (ArmState.create bd.d) arms
    else arms
  let arm := (lookupAL row.dishName arms).getD (ArmState.create bd.d)
  let seen := bd.seenCount profile.user_id row.dishName
  let score := armScore bd.d bd.alpha arm x seen
  if score > best_score then (arms, score, some row)
  else (arms, best_score, best_row)

/-- `select_dish` (bandit.py lines 118-177): filter the candidates, then take
    the LinUCB argmax; returns the chosen row (`None` when nothing survives)
    together with the bandit whose arm dicts may have grown. -/
def LinUCBBandit.select_dish (bd : LinUCBBandit) (profile : UserProfile)
    (daily_targets : MacroTargets) (meal_type : String)
    (candidate_df : List Row) (weekly_counts : List (String × ℕ))
    (max_per_week : ℕ) : Option Row × LinUCBBandit :=
  let arms0 := bd.userArms profile.user_id
  let filtered :=
    selectFilter bd profile.user_id weekly_counts max_per_week candidate_df
  if filtered.isEmpty then (none, bd.setUserArms profile.user_id arms0)
  else
    let res := filtered.foldl
      (scoreStep bd profile daily_targets meal_type)
      (arms0, -(10 ^ 9 : ℚ), none)
    (res.2.2, bd.setUserArms profile.user_id res.1)

/-! ### bandit.py: operation traces -/

/-- One public bandit operation: `update` or `select_dish`. -/
inductive BanditOp where
  | upd (profile : UserProfile) (daily_targets : MacroTargets)
      (meal_type : String) (dish_row : Row) (feedback : ℤ)
  | sel (profile : UserProfile) (daily_targets : MacroTargets)
      (meal_type : String) (candidate_df : List Row)
      (weekly_counts : List (String × ℕ)) (max_per_week : ℕ)

/-- State effect of one operation. -/
def applyOp (bd : LinUCBBandit) : BanditOp → LinUCBBandit
  | BanditOp.upd p dt mt row fb => bd.update p dt mt row fb
  | BanditOp.sel p dt mt cands wk mx => (bd.select_dish p dt mt cands wk mx).2

/-- Run a sequence of operations. -/
def runOps (bd : LinUCBBandit) (ops : List BanditOp) : LinUCBBandit :=
  ops.foldl applyOp bd

/-! ### bandit.py: persistence (save / load) -/

/-- `ArmState.to_serializable` (bandit.py lines 23-24): `A.tolist()`,
    `b.tolist()`; exact on the list representation. -/
def ArmState.toSerializable (a : ArmState) : List (List ℚ) × List ℚ :=
  (a.A, a.b)

/-- `ArmState.from_serializable` (bandit.py lines 26-28). -/
def ArmState.fromSerializable (p : List (List ℚ) × List ℚ) : ArmState :=
  { A := p.1, b := p.2 }

/-- The counter key string `f"{u}||{d}"` (bandit.py lines 238-239). -/
def encodeKey (u d : String) : String := u ++ "||" ++ d

/-- `k.split("||", 1)` on the character list: split at the FIRST occurrence
    of `"||"`; `none` when the separator does not occur. -/
def splitBar2 : List Char → Option (List Char × List Char)
  | [] => none
  | [_] => none
  | c1 :: c2 :: rest =>
    if c1 = '|' ∧ c2 = '|' then some ([], rest)
    else (splitBar2 (c2 :: rest)).map fun p => (c1 :: p.1, p.2)

/-- `u, d = k.split("||", 1)` (bandit.py lines 259, 262).  A key without
    `"||"` would raise `ValueError` in Python; that branch is unreachable on
    `save` output, and is modelled as `(k, "")`. -/
def decodeKey (k : String) : String × String :=
  match splitBar2 k.data with
  | some p => (String.mk p.1, String.mk p.2)
  | none => (k, "")

/-- The JSON document written by `save` (bandit.py lines 230-242). -/
structure SavedBandit where
  d : ℕ
  alpha : ℚ
  state : List (String × List (String × (List (List ℚ) × List ℚ)))
  likes : List (String × ℕ)
  dislikes : List (String × ℕ)
deriving Repr

/-- The dict comprehension `{f"{u}||{d}": c for (u, d), c in m.items()}`
    (bandit.py lines 238-239): building a dict overwrites on key collision. -/
def saveCounters (m : List ((String × String) × ℕ)) : List (String × ℕ) :=
  m.foldl (fun acc p => insertAL (encodeKey p.1.1 p.1.2) p.2 acc) []

/-- The load loop `for k, v in data[...].items(): ... [(u, d)] = v`
    (bandit.py lines 258-263). -/
def loadCounters (s : List (String × ℕ)) : List ((String × String) × ℕ) :=
  s.foldl (fun acc p => insertAL (decodeKey p.1) p.2 acc) []

/-- `save` (bandit.py lines 230-242), minus the file I/O: the serialised
    document. -/
def LinUCBBandit.save (bd : LinUCBBandit) : SavedBandit :=
  { d := bd.d
    alpha := bd.alpha
    state := bd.state.map fun p =>
      (p.1, p.2.map fun q => (q.1, q.2.toSerializable))
    likes := saveCounters bd.likes
    dislikes := saveCounters bd.dislikes }

/-- `load` (bandit.py lines 244-264), minus the file I/O: rebuild the bandit
    from the serialised document. -/
def LinUCBBandit.load (s : SavedBandit) : LinUCBBandit :=
  { LinUCBBandit.init s.d s.alpha with
      state := s.state.map fun p =>
        (p.1, p.2.map fun q => (q.1, ArmState.fromSerializable q.2))
      likes := loadCounters s.likes
      dislikes := loadCounters s.dislikes }

/-! ### meal_recommender.py -/

/-- The string-containment test `a in name` used by the allergy filter. -/
def containsSub (needle : List Char) : List Char → Bool
  | [] => needle.isEmpty
  | c :: rest => needle.isPrefixOf (c :: rest) || containsSub needle rest

/-- `MEAL_ORDER` (meal_recommender.py line 11). -/
def MEAL_ORDER : List String := ["breakfast", "lunch", "dinner", "snack"]

/-- One planned meal entry (meal_recommender.py lines 137-146). -/
structure MealEntry where
  dish_name : String
  calories_kcal : ℚ
  protein_g : ℚ
  carbs_g : ℚ
  fats_g : ℚ
  category : String
  veg_nonveg : String
  price_inr : ℚ
deriving DecidableEq, Repr

/-- The entry built for a chosen row (meal_recommender.py lines 137-146). -/
def mkMealEntry (row : Row) (meal_type : String) : MealEntry :=
  { dish_name := row.dishName
    calories_kcal := row.calories
    protein_g := row.protein
    carbs_g := row.carbs
    fats_g := row.fats
    category := meal_type
    veg_nonveg := row.vegNonVeg
    price_inr := row.price }

/-- One day of the plan (meal_recommender.py line 114): slot name ↦ entry
    or `None`, in `MEAL_ORDER` order. -/
structure DayPlan where
  day : ℕ
  meals : List (String × Option MealEntry)
deriving DecidableEq, Repr

/-- The weekly plan (meal_recommender.py lines 107-111). -/
structure WeeklyPlan where
  user_id : String
  daily_targets : MacroTargets
  days : List DayPlan
deriving DecidableEq, Repr

/-- `_filter_foods` (meal_recommender.py lines 75-100): category match,
    veg preference, allergy substring filter.  The food list is taken with
    `Category` and `Veg_NonVeg` columns already present (the `__init__`
    keyword inference only fills them when missing). -/
def filterFoods (food_df : List Row) (profile : UserProfile)
    (meal_type : String) : List Row :=
  let df := food_df.filter fun r => r.category.toLower = meal_type.toLower
  let df :=
    if profile.dietary_pref = DietaryPref.veg then
      df.filter fun r => r.vegNonVeg.toLower = "veg"
    else df
  match profile.allergies with
  | none => df
  | some allergies =>
    if allergies.isEmpty then df
    else
      let lower := allergies.map String.toLower
      df.filter fun r =>
        ¬ lower.any fun a => containsSub a.data r.dishName.toLower.data

/-- Planner state threaded through the slots: the bandit (whose arm dicts
    `select_dish` may grow) and `weekly_counts`. -/
abbrev PlanState := LinUCBBandit × List (String × ℕ)

/-- Fill one meal slot (meal_recommender.py lines 116-147): filter, select,
    record `null` on failure, else record the entry and bump the weekly
    count. -/
def planSlot (food_df : List Row) (profile : UserProfile)
    (daily_targets : MacroTargets) (st : PlanState) (meal_type : String) :
    Option MealEntry × PlanState :=
  let (bd, weekly) := st
  let candidates := filterFoods food_df profile meal_type
  if candidates.isEmpty then (none, bd, weekly)
  else
    match bd.select_dish profile daily_targets meal_type candidates
        weekly 2 with
    | (none, bd') => (none, bd', weekly)
    | (some row, bd') =>
      let weekly' :=
        insertAL row.dishName (getAL weekly row.dishName 0 + 1) weekly
      (some (mkMealEntry row meal_type), bd', weekly')

/-- The inner loop over `MEAL_ORDER` (meal_recommender.py lines 116-147). -/
def planSlots (food_df : List Row) (profile : UserProfile)
    (daily_targets : MacroTargets) (st : PlanState) :
    List String → List (String × Option MealEntry) × PlanState
  | [] => ([], st)
  | mt :: rest =>
    let (e, st') := planSlot food_df profile daily_targets st mt
    let (ms, st'') := planSlots food_df profile daily_targets st' rest
    ((mt, e) :: ms, st'')

/-- One day (meal_recommender.py lines 113-149): `day = day_idx + 1`. -/
def planDay (food_df : List Row) (profile : UserProfile)
    (daily_targets : MacroTargets) (st : PlanState) (day_idx : ℕ) :
    DayPlan × PlanState :=
  let (ms, st') := planSlots food_df profile daily_targets st MEAL_ORDER
  ({ day := day_idx + 1, meals := ms }, st')

/-- The loop over the seven days. -/
def planDays (food_df : List Row) (profile : UserProfile)
    (daily_targets : MacroTargets) (st : PlanState) :
    List ℕ → List DayPlan × PlanState
  | [] => ([], st)
  | i :: rest =>
    let (dp, st') := planDay food_df profile daily_targets st i
    let (ds, st'') := planDays food_df profile daily_targets st' rest
    (dp :: ds, st'')

/-- `generate_weekly_plan` (meal_recommender.py lines 103-151): compute the
    daily targets, fill 7 days × `MEAL_ORDER` slots with `weekly_counts`
    starting empty; returns the plan and the final bandit state. -/
def generate_weekly_plan (food_df : List Row) (bd : LinUCBBandit)
    (profile : UserProfile) : WeeklyPlan × LinUCBBandit :=
  let daily_targets := compute_macro_targets profile
  let (days, st) :=
    planDays food_df profile daily_targets (bd, []) (List.range 7)
  ({ user_id := profile.user_id
     daily_targets := daily_targets
     days := days }, st.1)

/-! ### Concrete instances used by counterexamples and witnesses -/

/-- The worked scenario of the spec: 175 cm, 72 kg, 25 y, male, moderate,
    maintenance, no overrides. -/
def profileScenario : UserProfile :=
  { user_id := "u", height_cm := 175, weight_kg := 72, age := 25
    gender := Gender.male, activity_level := ActivityLevel.moderate
    goal := Goal.maintenance }

/-- Scenario profile with an explicit `target_calories = 1000` override. -/
def profileOverride1000 : UserProfile :=
  { user_id := "u", height_cm := 175, weight_kg := 72, age := 25
    gender := Gender.male, activity_level := ActivityLevel.moderate
    goal := Goal.maintenance, target_calories := some 1000 }

/-- Scenario profile with an explicit `target_calories = 0` override. -/
def profileOverride0 : UserProfile :=
  { user_id := "u", height_cm := 175, weight_kg := 72, age := 25
    gender := Gender.male, activity_level := ActivityLevel.moderate
    goal := Goal.maintenance, target_calories := some 0 }

/-- Scenario profile with the weight-loss goal and no overrides. -/
def profileWeightLoss : UserProfile :=
  { user_id := "u", height_cm := 175, weight_kg := 72, age := 25
    gender := Gender.male, activity_level := ActivityLevel.moderate
    goal := Goal.weight_loss }

/-- A vegetarian lunch dish. -/
def rowDal : Row :=
  { dishName := "dal", category := "lunch", vegNonVeg := "Veg"
    calories := 250, protein := 20, carbs := 30, fats := 10, price := 50 }

/-- A second vegetarian lunch dish. -/
def rowRice : Row :=
  { dishName := "rice", category := "lunch", vegNonVeg := "Veg"
    calories := 200, protein := 5, carbs := 40, fats := 2, price := 30 }

/-- Daily targets used in concrete bandit scenarios. -/
def dtSample : MacroTargets :=
  { calories := 1000, protein_g := 100, carbs_g := 100, fats_g := 50 }

/-- A fresh one-dimensional bandit with `alpha = 0`. -/
def bdFresh : LinUCBBandit := LinUCBBandit.init 1 0

/-- A fresh eleven-dimensional bandit (the dimension of `build_context`). -/
def bdFresh11 : LinUCBBandit := LinUCBBandit.init 11 (2/5)

/-- A bandit store whose only like counter has a user id containing `"||"`. -/
def bdBarUser : LinUCBBandit :=
  { d := 1, alpha := 1, state := [], likes := [(("x||y", "z"), 1)]
    dislikes := [] }

/-- A populated bandit store with pipe-free user ids. -/
def bdPopulated : LinUCBBandit :=
  { d := 1, alpha := 1
    state := [("u", [("dal", { A := [[1]], b := [0] })])]
    likes := [(("u", "dal"), 2)]
    dislikes := [(("u", "rice"), 1)] }

/-- The day produced by the planner when no candidate ever survives:
    all four slots null. -/
def dayAllNull : DayPlan :=
  { day := 1
    meals := [("breakfast", none), ("lunch", none), ("dinner", none),
      ("snack", none)] }

/-! ### Counting helpers for the weekly plan -/

/-- 1 when the slot holds an entry named `D`, else 0. -/
def occD (D : String) : Option MealEntry → ℕ
  | some e => if e.dish_name = D then 1 else 0
  | none => 0

/-- How many of the 28 slot entries of a weekly plan are named `D`. -/
def countDish (D : String) (plan : WeeklyPlan) : ℕ :=
  (plan.days.map fun dp => (dp.meals.map fun s => occD D s.2).sum).sum

/-! ### Association-list lemmas -/

theorem lookupAL_insert_self {α β : Type} [DecidableEq α] (k : α) (v : β)
    (m : List (α × β)) : lookupAL k (insertAL k v m) = some v := by
  induction m with
  | nil => simp [insertAL, lookupAL]
  | cons p t ih =>
    by_cases h : p.1 = k
    · simp [insertAL, lookupAL, h]
    · simp [insertAL, lookupAL, h, ih]

theorem lookupAL_insert_ne {α β : Type} [DecidableEq α] {k k' : α} (v : β)
    (m : List (α × β)) (h : k' ≠ k) :
    lookupAL k (insertAL k' v m) = lookupAL k m := by
  induction m with
  | nil => simp [insertAL, lookupAL, h]
  | cons p t ih =>
    by_cases hp : p.1 = k'
    · simp [insertAL, lookupAL, hp, h, ih]
    · by_cases hk : p.1 = k
      · simp [insertAL, lookupAL, hp, hk, Ne.symm h]
      · simp [insertAL, lookupAL, hp, hk, ih]

theorem getAL_insert_self {α β : Type} [DecidableEq α] (k : α) (v : β)
    (m : List (α × β)) (dflt : β) : getAL (insertAL k v m) k dflt = v := by
  simp [getAL, lookupAL_insert_self]

theorem getAL_insert_ne {α β : Type} [DecidableEq α] {k k' : α} (v : β)
    (m : List (α × β)) (dflt : β) (h : k' ≠ k) :
    getAL (insertAL k' v m) k dflt = getAL m k dflt := by
  simp [getAL, lookupAL_insert_ne v m h]

/-! ### Rounding lemmas -/

/-- Round-half-to-even never rounds below the floor. -/
theorem rhe_ge_floor (q : ℚ) : ⌊q⌋ ≤ rhe q := by
  simp only [rhe]
  split_ifs <;> omega

/-- `round1` stays at or above any integer lower bound of its argument. -/
theorem intLe_round1 (n : ℤ) (q : ℚ) (h : (n : ℚ) ≤ q) :
    (n : ℚ) ≤ round1 q := by
  have h1 : (10 * n : ℤ) ≤ ⌊10 * q⌋ := by
    apply Int.le_floor.mpr
    push_cast
    linarith
  have h2 : ⌊10 * q⌋ ≤ rhe (10 * q) := rhe_ge_floor _
  have h3 : ((10 * n : ℤ) : ℚ) ≤ ((rhe (10 * q) : ℤ) : ℚ) := by
    exact_mod_cast le_trans h1 h2
  unfold round1
  push_cast at h3
  linarith

/-! ### Claims C2, C5, C7, C8 -/

/-- C2 counterexample: with an explicit `target_calories = 1000` override
    (and also, one can check, for `target_calories = 0`), the returned
    calories are strictly below the alleged 1200-kcal floor: the floor in
    `adjust_for_goal` only applies to the weight-loss goal and is bypassed
    by the override. -/
theorem c2_calorie_floor_counterexample :
    ¬ (1200 : ℚ) ≤ (compute_macro_targets profileOverride1000).calories := by
  norm_num [compute_macro_targets, profileOverride1000, adjust_for_goal,
    compute_tdee, compute_bmr, activityMultiplier, round1, rhe]

/-- C2 (amended): for every profile with goal `weight_loss` and no explicit
    `target_calories` override, `compute_macro_targets` returns at least
    1200 kcal. -/
theorem c2_calorie_floor (p : UserProfile)
    (hg : p.goal = Goal.weight_loss) (ht : p.target_calories = none) :
    (1200 : ℚ) ≤ (compute_macro_targets p).calories := by
  unfold compute_macro_targets
  rw [ht, hg]
  have hfloor : (1200 : ℚ) ≤ adjust_for_goal (compute_tdee p)
      Goal.weight_loss := le_max_left _ _
  have := intLe_round1 1200 (adjust_for_goal (compute_tdee p)
    Goal.weight_loss) (by exact_mod_cast hfloor)
  simpa using this

/-- C2 witness: the weight-loss scenario profile satisfies the hypotheses
    and gets at least 1200 kcal. -/
theorem c2_calorie_floor_witness :
    profileWeightLoss.goal = Goal.weight_loss ∧
      (1200 : ℚ) ≤ (compute_macro_targets profileWeightLoss).calories :=
  ⟨rfl, c2_calorie_floor profileWeightLoss rfl rfl⟩

/-- C5 counterexample: with `target_calories = 0` the returned record has
    `protein_g·4 + fats_g·9 = 1036.8 > 0 = calories`: the internal floor
    protects the carb budget, not the stated inequality on the returned
    fields. -/
theorem c5_carbs_counterexample :
    ¬ (compute_macro_targets profileOverride0).protein_g * 4 +
        (compute_macro_targets profileOverride0).fats_g * 9 ≤
        (compute_macro_targets profileOverride0).calories := by
  norm_num [compute_macro_targets, profileOverride0, adjust_for_goal,
    compute_tdee, compute_bmr, activityMultiplier, round1, rhe]

/-- C5 (amended): the carbohydrate budget derived from the remaining
    calories is never negative: for every profile,
    `compute_macro_targets(p).carbs_g ≥ 0` (the remaining calories are
    floored at 0 before the division by 4). -/
theorem c5_carbs_nonneg (p : UserProfile) :
    (0 : ℚ) ≤ (compute_macro_targets p).carbs_g := by
  unfold compute_macro_targets
  have h4 : (0 : ℚ) ≤
      max 0 ((match p.target_calories with
        | some t => t
        | none => adjust_for_goal (compute_tdee p) p.goal) -
        4 * (match p.target_protein_g with
          | some t => t
          | none => (9/5) * p.weight_kg) -
        9 * ((4/5) * p.weight_kg)) / 4 := by
    have := le_max_left (0 : ℚ) ((match p.target_calories with
        | some t => t
        | none => adjust_for_goal (compute_tdee p) p.goal) -
        4 * (match p.target_protein_g with
          | some t => t
          | none => (9/5) * p.weight_kg) -
        9 * ((4/5) * p.weight_kg))
    linarith
  have := intLe_round1 0 _ h4
  simpa using this

/-- C7: the four per-slot targets sum componentwise to the daily targets:
    the shares 0.25 + 0.35 + 0.30 + 0.10 add to 1. -/
theorem c7_meal_share_partition (daily : MacroTargets) :
    (get_meal_macro_targets daily "breakfast").calories +
        (get_meal_macro_targets daily "lunch").calories +
        (get_meal_macro_targets daily "dinner").calories +
        (get_meal_macro_targets daily "snack").calories = daily.calories ∧
    (get_meal_macro_targets daily "breakfast").protein_g +
        (get_meal_macro_targets daily "lunch").protein_g +
        (get_meal_macro_targets daily "dinner").protein_g +
        (get_meal_macro_targets daily "snack").protein_g = daily.protein_g ∧
    (get_meal_macro_targets daily "breakfast").carbs_g +
        (get_meal_macro_targets daily "lunch").carbs_g +
        (get_meal_macro_targets daily "dinner").carbs_g +
        (get_meal_macro_targets daily "snack").carbs_g = daily.carbs_g ∧
    (get_meal_macro_targets daily "breakfast").fats_g +
        (get_meal_macro_targets daily "lunch").fats_g +
        (get_meal_macro_targets daily "dinner").fats_g +
        (get_meal_macro_targets daily "snack").fats_g = daily.fats_g := by
  have hb : mealShare "breakfast" = 1/4 := rfl
  have hl : mealShare "lunch" = 7/20 := rfl
  have hd : mealShare "dinner" = 3/10 := rfl
  have hs : mealShare "snack" = 1/10 := rfl
  refine ⟨?_, ?_, ?_, ?_⟩ <;>
    · simp only [get_meal_macro_targets, hb, hl, hd, hs]
      ring

/-- C8 counterexample: the spec's worked numbers are off: the code's
    Mifflin-St Jeor BMR for the scenario profile is 1693.75, more than 60
    kcal away from the claimed ≈1756.6, and the daily calories are 2625.3,
    not ≈2723; the carbs are 397.1, not ≈421.55. -/
theorem c8_scenario_counterexample :
    |compute_bmr profileScenario - 17566/10| > 60 ∧
      |(compute_macro_targets profileScenario).calories - 2723| > 90 ∧
      |(compute_macro_targets profileScenario).carbs_g - 42155/100| > 20 := by
  norm_num [compute_macro_targets, profileScenario, adjust_for_goal,
    compute_tdee, compute_bmr, activityMultiplier, round1, rhe, abs]

/-- C8 (amended): for the scenario profile the code returns
    BMR = 1693.75, TDEE = 1693.75 × 1.55 = 2625.3125, and macro targets
    calories = 2625.3, protein = 129.6 g, carbs = 397.1 g, fats = 57.6 g. -/
theorem c8_scenario :
    compute_bmr profileScenario = 6775/4 ∧
      compute_tdee profileScenario = 42005/16 ∧
      compute_macro_targets profileScenario =
        { calories := 26253/10, protein_g := 648/5
          carbs_g := 3971/10, fats_g := 288/5 } := by
  refine ⟨?_, ?_, ?_⟩ <;>
    norm_num [compute_macro_targets, profileScenario, adjust_for_goal,
      compute_tdee, compute_bmr, activityMultiplier, round1, rhe,
      MacroTargets.mk.injEq]

/-! ### Claim C6: reward monotonicity in feedback -/

/-- `rel_err` is nonnegative. -/
theorem relErr_nonneg (v t : ℚ) : 0 ≤ relErr v t := by
  unfold relErr
  split_ifs with h
  · exact le_refl 0
  · exact div_nonneg (abs_nonneg _) (le_of_lt (lt_of_not_le h))

/-- The macro-fit score is at least 0. -/
theorem macroFit_nonneg (mt : MacroTargets) (cal prot carbs fats : ℚ) :
    0 ≤ compute_macro_fit mt cal prot carbs fats :=
  le_max_left _ _

/-- The macro-fit score is at most 1. -/
theorem macroFit_le_one (mt : MacroTargets) (cal prot carbs fats : ℚ) :
    compute_macro_fit mt cal prot carbs fats ≤ 1 := by
  unfold compute_macro_fit
  have h1 := relErr_nonneg cal mt.calories
  have h2 := relErr_nonneg prot mt.protein_g
  have h3 := relErr_nonneg carbs mt.carbs_g
  have h4 := relErr_nonneg fats mt.fats_g
  simp only [List.sum_cons, List.sum_nil]
  apply max_le
  · linarith
  · linarith

/-- `max 0 (min 1 x) = x` on `[0, 1]`. -/
theorem clamp01_eq (x : ℚ) (h0 : 0 ≤ x) (h1 : x ≤ 1) :
    max 0 (min 1 x) = x := by
  rw [min_eq_right h1, max_eq_right h0]

/-- C6: holding the daily targets, meal slot and dish row (hence the
    macro fit) fixed, the clamped reward computed by `update` is strictly
    larger for `feedback = +1` than for `feedback = 0`, and strictly larger
    for `feedback = 0` than for `feedback = -1`. -/
theorem c6_reward_monotone (dt : MacroTargets) (mt : String) (row : Row) :
    rewardOf 0 dt mt row < rewardOf 1 dt mt row ∧
      rewardOf (-1) dt mt row < rewardOf 0 dt mt row := by
  have hfb1 : fbScoreOf 1 = 1 := by norm_num [fbScoreOf]
  have hfb0 : fbScoreOf 0 = 1/2 := by norm_num [fbScoreOf]
  have hfbm : fbScoreOf (-1) = 0 := by norm_num [fbScoreOf]
  have h0 := macroFit_nonneg (get_meal_macro_targets dt mt)
    row.calories row.protein row.carbs row.fats
  have h1 := macroFit_le_one (get_meal_macro_targets dt mt)
    row.calories row.protein row.carbs row.fats
  simp only [rewardOf, hfb1, hfb0, hfbm]
  rw [clamp01_eq _ (by linarith) (by linarith),
    clamp01_eq _ (by linarith) (by linarith),
    clamp01_eq _ (by linarith) (by linarith)]
  constructor <;> linarith

/-! ### Claim C10: neutral feedback is a frame for the counters -/

/-- C10: `update` with `feedback = 0` changes neither the likes nor the
    dislikes dict (hence every seen-count is unchanged), and a dish whose
    seen-count for a user is 0 is scored with the flat `+0.05` exploration
    bonus on top of the LinUCB score in `select_dish`. -/
theorem c10_neutral_frame (bd : LinUCBBandit) (p : UserProfile)
    (dt : MacroTargets) (mt : String) (row : Row) (uid dish : String)
    (arm : ArmState) (x : List ℚ) (h : bd.seenCount uid dish = 0) :
    (bd.update p dt mt row 0).likes = bd.likes ∧
      (bd.update p dt mt row 0).dislikes = bd.dislikes ∧
      (bd.update p dt mt row 0).seenCount uid dish = bd.seenCount uid dish ∧
      armScore bd.d bd.alpha arm x (bd.seenCount uid dish) =
        armScoreBase bd.d bd.alpha arm x + 1/20 := by
  have hlikes : (bd.update p dt mt row 0).likes = bd.likes := by
    simp [LinUCBBandit.update, LinUCBBandit.setUserArms]
  have hdislikes : (bd.update p dt mt row 0).dislikes = bd.dislikes := by
    simp [LinUCBBandit.update, LinUCBBandit.setUserArms]
  refine ⟨hlikes, hdislikes, ?_, ?_⟩
  · simp [LinUCBBandit.seenCount, hlikes, hdislikes]
  · simp [armScore, h]

/-- C10 witness: the fresh bandit has seen-count 0 for `("u", "dal")`, a
    neutral update leaves both counter dicts empty, and the score carries
    the `+0.05` bonus. -/
theorem c10_neutral_frame_witness :
    (bdFresh.update profileScenario dtSample "lunch" rowDal 0).likes =
        bdFresh.likes ∧
      (bdFresh.update profileScenario dtSample "lunch" rowDal 0).dislikes =
        bdFresh.dislikes ∧
      (bdFresh.update profileScenario dtSample "lunch" rowDal 0).seenCount
        "u" "dal" = bdFresh.seenCount "u" "dal" ∧
      armScore bdFresh.d bdFresh.alpha (ArmState.create 1) [1]
          (bdFresh.seenCount "u" "dal") =
        armScoreBase bdFresh.d bdFresh.alpha (ArmState.create 1) [1] +
          1/20 :=
  c10_neutral_frame bdFresh profileScenario dtSample "lunch" rowDal
    "u" "dal" (ArmState.create 1) [1] rfl

/-! ### Claim C1: permanent dislike veto -/

/-- `update` with `feedback = -1` makes the dislike counter of
    `(user, dish)` positive. -/
theorem update_dislike_pos (bd : LinUCBBandit) (p : UserProfile)
    (dt : MacroTargets) (mt : String) (row : Row) :
    0 < getAL (bd.update p dt mt row (-1)).dislikes
      (p.user_id, row.dishName) 0 := by
  simp only [LinUCBBandit.update, LinUCBBandit.setUserArms]
  norm_num [getAL_insert_self]

/-- No bandit operation decreases any dislike counter. -/
theorem applyOp_dislikes_mono (bd : LinUCBBandit) (op : BanditOp)
    (k : String × String) :
    getAL bd.dislikes k 0 ≤ getAL (applyOp bd op).dislikes k 0 := by
  cases op with
  | upd p dt mt row fb =>
    simp only [applyOp, LinUCBBandit.update, LinUCBBandit.setUserArms]
    split_ifs with h1 h2
    · exact le_refl _
    · by_cases hk : (p.user_id, row.dishName) = k
      · subst hk
        rw [getAL_insert_self]
        omega
      · rw [getAL_insert_ne _ _ _ hk]
    · exact le_refl _
  | sel p dt mt cands wk mx =>
    simp only [applyOp, LinUCBBandit.select_dish, LinUCBBandit.setUserArms]
    split <;> simp

/-- Once positive, a dislike counter stays positive across any sequence of
    bandit operations. -/
theorem runOps_dislike_pos (bd : LinUCBBandit) (ops : List BanditOp)
    (k : String × String) (h : 0 < getAL bd.dislikes k 0) :
    0 < getAL (runOps bd ops).dislikes k 0 := by
  induction ops generalizing bd with
  | nil => simpa [runOps] using h
  | cons op t ih =>
    simp only [runOps, List.foldl_cons]
    exact ih _ (lt_of_lt_of_le h (applyOp_dislikes_mono bd op k))

/-- One scoring step either keeps the incumbent best row or promotes the
    row it just scored. -/
theorem scoreStep_snd (bd : LinUCBBandit) (p : UserProfile)
    (dt : MacroTargets) (mt : String)
    (acc : List (String × ArmState) × ℚ × Option Row) (a : Row) :
    (scoreStep bd p dt mt acc a).2.2 = acc.2.2 ∨
      (scoreStep bd p dt mt acc a).2.2 = some a := by
  obtain ⟨arms, best, bestRow⟩ := acc
  simp only [scoreStep]
  split_ifs <;> simp

/-- The scoring fold returns the initial best row or a member of the
    scored list. -/
theorem scoreFold_mem (bd : LinUCBBandit) (p : UserProfile)
    (dt : MacroTargets) (mt : String) :
    ∀ (l : List Row) (acc : List (String × ArmState) × ℚ × Option Row),
      (l.foldl (scoreStep bd p dt mt) acc).2.2 = acc.2.2 ∨
        ∃ r ∈ l, (l.foldl (scoreStep bd p dt mt) acc).2.2 = some r := by
  intro l
  induction l with
  | nil => intro acc; left; rfl
  | cons a t ih =>
    intro acc
    rw [List.foldl_cons]
    rcases ih (scoreStep bd p dt mt acc a) with h | h
    · rcases scoreStep_snd bd p dt mt acc a with h' | h'
      · left; rw [h, h']
      · right; exact ⟨a, List.mem_cons_self a t, h.trans h'⟩
    · rcases h with ⟨r, hr, hres⟩
      right; exact ⟨r, List.mem_cons_of_mem a hr, hres⟩

/-- A dish returned by `select_dish` survived the hard-constraint filter. -/
theorem select_some_mem (bd : LinUCBBandit) (p : UserProfile)
    (dt : MacroTargets) (mt : String) (cands : List Row)
    (wk : List (String × ℕ)) (mx : ℕ) (r : Row)
    (h : (bd.select_dish p dt mt cands wk mx).1 = some r) :
    r ∈ selectFilter bd p.user_id wk mx cands := by
  simp only [LinUCBBandit.select_dish] at h
  by_cases he : (selectFilter bd p.user_id wk mx cands).isEmpty
  · simp [he] at h
  · simp only [he, Bool.false_eq_true, if_false] at h
    rcases scoreFold_mem bd p dt mt (selectFilter bd p.user_id wk mx cands)
      (bd.userArms p.user_id, -(10 ^ 9 : ℚ), none) with hm | hm
    · rw [h] at hm
      simp at hm
    · rcases hm with ⟨x, hx, hres⟩
      rw [h] at hres
      obtain rfl : r = x := by simpa using hres
      exact hx

/-- A dish that survived the filter has a zero dislike counter for the
    user. -/
theorem mem_filter_dislike_zero (bd : LinUCBBandit) (uid : String)
    (wk : List (String × ℕ)) (mx : ℕ) (cands : List Row) (r : Row)
    (h : r ∈ selectFilter bd uid wk mx cands) :
    getAL bd.dislikes (uid, r.dishName) 0 = 0 := by
  simp only [selectFilter, List.mem_filter] at h
  have h2 := h.2
  simp only [decide_eq_true_eq] at h2
  omega

/-- C1: after `update(..., feedback = -1)` for user U and dish D, the
    dislike counter of (U, D) is positive and stays positive across any
    sequence of further bandit operations, and every subsequent
    `select_dish` for U (any candidates, targets, slot, weekly counts and
    cap) never returns a row named D. -/
theorem c1_dislike_veto (bd : LinUCBBandit) (pU : UserProfile)
    (dt : MacroTargets) (mt : String) (rowD : Row) (ops : List BanditOp)
    (p2 : UserProfile) (dt2 : MacroTargets) (mt2 : String)
    (cands : List Row) (wk : List (String × ℕ)) (mx : ℕ) (r : Row)
    (huser : p2.user_id = pU.user_id)
    (hsel : ((runOps (bd.update pU dt mt rowD (-1)) ops).select_dish
      p2 dt2 mt2 cands wk mx).1 = some r) :
    0 < getAL (runOps (bd.update pU dt mt rowD (-1)) ops).dislikes
        (pU.user_id, rowD.dishName) 0 ∧
      r.dishName ≠ rowD.dishName := by
  have hpos := runOps_dislike_pos (bd.update pU dt mt rowD (-1)) ops
    (pU.user_id, rowD.dishName) (update_dislike_pos bd pU dt mt rowD)
  refine ⟨hpos, ?_⟩
  intro hname
  have hmem := select_some_mem _ p2 dt2 mt2 cands wk mx r hsel
  have hzero := mem_filter_dislike_zero _ p2.user_id wk mx cands r hmem
  rw [huser, hname] at hzero
  omega

/-- C1 witness: on a fresh bandit, dislike "dal" once; a subsequent
    `select_dish` over `[dal, rice]` returns `rice`, and the veto holds. -/
theorem c1_dislike_veto_witness :
    0 < getAL (runOps (bdFresh.update profileScenario dtSample "lunch"
          rowDal (-1)) []).dislikes
        (profileScenario.user_id, rowDal.dishName) 0 ∧
      rowRice.dishName ≠ rowDal.dishName :=
  c1_dislike_veto bdFresh profileScenario dtSample "lunch" rowDal []
    profileScenario dtSample "lunch" [rowDal, rowRice] [] 2 rowRice rfl
    (by
      have hr1 : List.range 1 = [0] := by rfl
      set_option maxRecDepth 4000 in
      simp [runOps, LinUCBBandit.update, LinUCBBandit.select_dish,
        selectFilter, scoreStep, armScore, armScoreBase, matInv, gaussJordan,
        pivotRow, elimRow, eyeList, matVec, dotQ, ArmState.create,
        build_context, UserProfile.bmi, getAL, lookupAL, insertAL,
        LinUCBBandit.userArms, LinUCBBandit.setUserArms,
        LinUCBBandit.seenCount, fbScoreOf, rewardOf, compute_macro_fit,
        relErr, get_meal_macro_targets, mealShare, matAddOuter, vecAddScaled,
        profileScenario, dtSample, rowDal, rowRice, bdFresh,
        LinUCBBandit.init, List.foldl_cons, List.foldl_nil, hr1,
        List.range_zero, List.getD, Option.getD, Function.comp]
      norm_num [matInv, gaussJordan, pivotRow, elimRow, eyeList, matVec,
        dotQ, hr1, List.range_zero, List.getD, Option.getD, Function.comp,
        List.foldl_cons, List.foldl_nil])

/-! ### Claim C4: persistence round-trip -/

/-- Inserting a fresh key appends the binding. -/
theorem insertAL_fresh {α β : Type} [DecidableEq α] (k : α) (v : β)
    (m : List (α × β)) (h : k ∉ m.map Prod.fst) :
    insertAL k v m = m ++ [(k, v)] := by
  induction m with
  | nil => rfl
  | cons p t ih =>
    simp only [List.map_cons, List.mem_cons] at h
    push_neg at h
    simp only [insertAL, if_neg (Ne.symm h.1), List.cons_append,
      List.cons.injEq, true_and]
    exact ih h.2

/-- Folding dict inserts whose (transformed) keys are pairwise distinct and
    fresh for the accumulator just appends the transformed bindings. -/
theorem foldl_insertAL_map {κ κ' V : Type} [DecidableEq κ'] (g : κ → κ') :
    ∀ (l : List (κ × V)) (acc : List (κ' × V)),
      (l.map fun p => g p.1).Nodup →
      (∀ p ∈ l, g p.1 ∉ acc.map Prod.fst) →
      l.foldl (fun acc p => insertAL (g p.1) p.2 acc) acc =
        acc ++ l.map fun p => (g p.1, p.2) := by
  intro l
  induction l with
  | nil => intro acc _ _; simp
  | cons p t ih =>
    intro acc hnodup hdisj
    simp only [List.map_cons, List.nodup_cons] at hnodup
    rw [List.foldl_cons,
      insertAL_fresh _ _ _ (hdisj p (List.mem_cons_self p t)),
      ih (acc ++ [(g p.1, p.2)]) hnodup.2]
    · simp
    · intro q hq
      simp only [List.map_append, List.mem_append, List.map_cons,
        List.map_nil, List.mem_singleton, not_or]
      refine ⟨hdisj q (List.mem_cons_of_mem p hq), ?_⟩
      intro hgq
      exact hnodup.1 (hgq ▸ List.mem_map_of_mem (fun p => g p.1) hq)

/-- `String.append` concatenates the character lists. -/
theorem string_data_append (s t : String) :
    (s ++ t).data = s.data ++ t.data := by
  cases s; cases t; rfl

/-- Splitting at the first `"||"`: a pipe-free prefix is recovered
    exactly. -/
theorem splitBar2_append (u rest : List Char) (h : '|' ∉ u) :
    splitBar2 (u ++ '|' :: '|' :: rest) = some (u, rest) := by
  induction u with
  | nil => simp [splitBar2]
  | cons c u' ih =>
    have hc : c ≠ '|' := by
      intro hc
      exact h (hc ▸ List.mem_cons_self c u')
    have h' : '|' ∉ u' := fun hm => h (List.mem_cons_of_mem c hm)
    cases u' with
    | nil => simp [splitBar2, hc]
    | cons c2 u'' =>
      have h2 := ih h'
      simp only [List.cons_append] at h2 ⊢
      simp [splitBar2, hc, h2]

/-- Decoding inverts encoding when the user id contains no pipe. -/
theorem decodeKey_encodeKey (u d : String) (h : '|' ∉ u.data) :
    decodeKey (encodeKey u d) = (u, d) := by
  obtain ⟨ul⟩ := u
  obtain ⟨dl⟩ := d
  have hdata : (encodeKey ⟨ul⟩ ⟨dl⟩).data = ul ++ '|' :: '|' :: dl := by
    show ((⟨ul⟩ : String) ++ "||" ++ ⟨dl⟩).data = _
    rw [string_data_append, string_data_append]
    simp
  simp only [decodeKey, hdata, splitBar2_append ul dl h]

/-- Saving then loading the counter dicts is the identity when all user ids
    are pipe-free and the keys are distinct. -/
theorem counters_roundtrip (m : List ((String × String) × ℕ))
    (hnodup : (m.map Prod.fst).Nodup)
    (hbar : ∀ p ∈ m, '|' ∉ p.1.1.data) :
    loadCounters (saveCounters m) = m := by
  have hdec : ∀ p ∈ m, decodeKey (encodeKey p.1.1 p.1.2) = p.1 := by
    intro p hp
    exact decodeKey_encodeKey p.1.1 p.1.2 (hbar p hp)
  have hkeys : m.map (fun p => encodeKey p.1.1 p.1.2) =
      (m.map Prod.fst).map (fun k => encodeKey k.1 k.2) := by
    simp [List.map_map, Function.comp]
  have henc : (m.map fun p => encodeKey p.1.1 p.1.2).Nodup := by
    rw [hkeys]
    refine hnodup.map_on ?_
    intro x hx y hy hxy
    have hbx : '|' ∉ x.1.data := by
      rcases List.mem_map.mp hx with ⟨p, hp, rfl⟩
      exact hbar p hp
    have hby : '|' ∉ y.1.data := by
      rcases List.mem_map.mp hy with ⟨p, hp, rfl⟩
      exact hbar p hp
    have := congrArg decodeKey hxy
    rwa [decodeKey_encodeKey x.1 x.2 hbx,
      decodeKey_encodeKey y.1 y.2 hby] at this
  have e1 := foldl_insertAL_map (fun k : String × String => encodeKey k.1 k.2)
    m [] henc (by simp)
  rw [saveCounters]
  simp only at e1
  rw [e1, List.nil_append, loadCounters, foldl_insertAL_map decodeKey _ []]
  · rw [List.nil_append, List.map_map]
    have : ∀ p ∈ m, ((fun p => (decodeKey p.1, p.2)) ∘
        fun p => (encodeKey p.1.1 p.1.2, p.2)) p = id p := by
      intro p hp
      simp [Function.comp, hdec p hp]
    rw [List.map_congr_left this, List.map_id]
  · rw [List.map_map]
    have : ∀ p ∈ m, ((fun p => decodeKey p.1) ∘
        fun p => (encodeKey p.1.1 p.1.2, p.2)) p = Prod.fst p := by
      intro p hp
      simp [Function.comp, hdec p hp]
    rw [List.map_congr_left this]
    exact hnodup
  · simp

/-- Serialising and restoring the per-user arm dicts is the identity. -/
theorem arms_roundtrip (l : List (String × ArmState)) :
    ((l.map fun q => (q.1, q.2.toSerializable)).map
      fun q => (q.1, ArmState.fromSerializable q.2)) = l := by
  induction l with
  | nil => rfl
  | cons q t ih =>
    simp only [List.map_cons, ih]
    rfl

/-- Serialising and restoring the whole `state` dict is the identity. -/
theorem state_roundtrip (s : List (String × List (String × ArmState))) :
    ((s.map fun p => (p.1, p.2.map fun q => (q.1, q.2.toSerializable))).map
      fun p => (p.1, p.2.map fun q => (q.1, ArmState.fromSerializable q.2)))
      = s := by
  induction s with
  | nil => rfl
  | cons p t ih =>
    simp only [List.map_cons, ih, arms_roundtrip]

/-- C4 counterexample: for the store whose only like counter belongs to the
    user id `"x||y"`, `load (save store)` does not reproduce the counters:
    the key string `"x||y||z"` is split at its first `"||"` into
    `("x", "y||z")`. -/
theorem c4_roundtrip_counterexample :
    lookupAL ("x||y", "z") (LinUCBBandit.load bdBarUser.save).likes ≠
        lookupAL ("x||y", "z") bdBarUser.likes ∧
      (LinUCBBandit.load bdBarUser.save).likes ≠ bdBarUser.likes := by
  decide

/-- C4 (amended): `load (save store)` reproduces `d`, `alpha`, every arm's
    `A` and `b` exactly, and every like/dislike counter, provided the
    like/dislike keys are distinct and no user id appearing in them
    contains the pipe character (the `"u||d"` key encoding is only
    invertible then). -/
theorem c4_roundtrip (bd : LinUCBBandit)
    (hL : (bd.likes.map Prod.fst).Nodup)
    (hD : (bd.dislikes.map Prod.fst).Nodup)
    (hbarL : ∀ p ∈ bd.likes, '|' ∉ p.1.1.data)
    (hbarD : ∀ p ∈ bd.dislikes, '|' ∉ p.1.1.data) :
    LinUCBBandit.load bd.save = bd := by
  obtain ⟨d, alpha, st, lk, dk⟩ := bd
  simp only [LinUCBBandit.load, LinUCBBandit.save, LinUCBBandit.init,
    LinUCBBandit.mk.injEq]
  exact ⟨trivial, trivial, state_roundtrip st, counters_roundtrip lk hL hbarL,
    counters_roundtrip dk hD hbarD⟩

/-- C4 witness: a populated store with pipe-free user ids round-trips
    exactly. -/
theorem c4_roundtrip_witness :
    LinUCBBandit.load bdPopulated.save = bdPopulated :=
  c4_roundtrip bdPopulated (by decide) (by decide) (by decide) (by decide)

/-! ### Claim C9: the weekly plan always completes, failures become null -/

/-- The slots produced for a list of meal types are exactly those meal
    types, in order, whatever the planner state. -/
theorem planSlots_fst (df : List Row) (p : UserProfile) (dt : MacroTargets) :
    ∀ (mts : List String) (st : PlanState),
      (planSlots df p dt st mts).1.map Prod.fst = mts := by
  intro mts
  induction mts with
  | nil => intro st; rfl
  | cons mt rest ih =>
    intro st
    rcases hps : planSlot df p dt st mt with ⟨e, st'⟩
    simp only [planSlots, hps, List.map_cons, List.cons.injEq, true_and]
    exact ih st'

/-- `planDays` produces one day record per requested index. -/
theorem planDays_length (df : List Row) (p : UserProfile)
    (dt : MacroTargets) :
    ∀ (idxs : List ℕ) (st : PlanState),
      (planDays df p dt st idxs).1.length = idxs.length := by
  intro idxs
  induction idxs with
  | nil => intro st; rfl
  | cons i rest ih =>
    intro st
    rcases hpd : planDay df p dt st i with ⟨dp, st'⟩
    simp only [planDays, hpd, List.length_cons, ih st']

/-- Every produced day has exactly the `MEAL_ORDER` slots. -/
theorem planDays_meals (df : List Row) (p : UserProfile)
    (dt : MacroTargets) :
    ∀ (idxs : List ℕ) (st : PlanState) (dp : DayPlan),
      dp ∈ (planDays df p dt st idxs).1 →
      dp.meals.map Prod.fst = MEAL_ORDER := by
  intro idxs
  induction idxs with
  | nil =>
    intro st dp h
    simp [planDays] at h
  | cons i rest ih =>
    intro st dp h
    rcases hpd : planDay df p dt st i with ⟨dp1, st'⟩
    simp only [planDays, hpd, List.mem_cons] at h
    rcases h with h | h
    · subst h
      rcases hps : planSlots df p dt st MEAL_ORDER with ⟨ms, st2⟩
      simp only [planDay, hps] at hpd
      have hfst := congrArg Prod.fst hpd
      simp only at hfst
      have hm := planSlots_fst df p dt MEAL_ORDER st
      rw [hps] at hm
      rw [← hfst]
      exact hm
    · exact ih st' dp h

/-- C9: `generate_weekly_plan` always completes with exactly 7 day entries,
    each containing all four `MEAL_ORDER` slots; and a slot whose filtered
    candidate set is empty (likewise, by `select_dish` returning `None`, one
    whose candidates are all vetoed or capped) is recorded as `null` while
    the rest of the plan is still produced. -/
theorem c9_plan_total (df : List Row) (bd : LinUCBBandit) (p : UserProfile) :
    (generate_weekly_plan df bd p).1.days.length = 7 ∧
      (∀ dp ∈ (generate_weekly_plan df bd p).1.days,
        dp.meals.map Prod.fst = MEAL_ORDER) ∧
      (∀ (st : PlanState) (mt : String), filterFoods df p mt = [] →
        (planSlot df p (compute_macro_targets p) st mt).1 = none) := by
  rcases hpd : planDays df p (compute_macro_targets p) (bd, [])
    (List.range 7) with ⟨days, stF⟩
  refine ⟨?_, ?_, ?_⟩
  · have hlen := planDays_length df p (compute_macro_targets p)
      (List.range 7) (bd, [])
    rw [hpd] at hlen
    simp only [generate_weekly_plan, hpd]
    simpa using hlen
  · intro dp hdp
    simp only [generate_weekly_plan, hpd] at hdp
    have := planDays_meals df p (compute_macro_targets p) (List.range 7)
      (bd, []) dp
    rw [hpd] at this
    exact this hdp
  · intro st mt h
    obtain ⟨bd', wk⟩ := st
    simp [planSlot, h]

/-- C9 witness: with an empty catalog the plan still has 7 days, the first
    day carries all four slots (all null), and the lunch slot is null. -/
theorem c9_plan_total_witness :
    (generate_weekly_plan [] bdFresh11 profileScenario).1.days.length = 7 ∧
      dayAllNull.meals.map Prod.fst = MEAL_ORDER ∧
      (planSlot [] profileScenario (compute_macro_targets profileScenario)
        (bdFresh11, []) "lunch").1 = none :=
  ⟨(c9_plan_total [] bdFresh11 profileScenario).1,
    (c9_plan_total [] bdFresh11 profileScenario).2.1 dayAllNull (by decide),
    (c9_plan_total [] bdFresh11 profileScenario).2.2 (bdFresh11, []) "lunch"
      rfl⟩

/-! ### Claim C3: weekly repetition cap -/

/-- A dish returned by `select_dish` had a weekly count strictly below the
    cap. -/
theorem select_some_weekly_lt (bd : LinUCBBandit) (p : UserProfile)
    (dt : MacroTargets) (mt : String) (cands : List Row)
    (wk : List (String × ℕ)) (mx : ℕ) (r : Row)
    (h : (bd.select_dish p dt mt cands wk mx).1 = some r) :
    getAL wk r.dishName 0 < mx := by
  have hmem := select_some_mem bd p dt mt cands wk mx r h
  simp only [selectFilter, List.mem_filter, decide_eq_true_eq] at hmem
  have h2 := hmem.2.2
  omega

/-- One slot adds its occurrence of `D` to the weekly count of `D`, and
    keeps the count at or below 2. -/
theorem planSlot_count (df : List Row) (p : UserProfile) (dt : MacroTargets)
    (st : PlanState) (mt D : String) :
    getAL (planSlot df p dt st mt).2.2 D 0 =
      getAL st.2 D 0 + occD D (planSlot df p dt st mt).1 ∧
      (getAL st.2 D 0 ≤ 2 → getAL (planSlot df p dt st mt).2.2 D 0 ≤ 2) := by
  obtain ⟨bd, wk⟩ := st
  simp only [planSlot]
  by_cases he : (filterFoods df p mt).isEmpty
  · simp [he, occD]
  · simp only [he, Bool.false_eq_true, if_false]
    rcases hsel : bd.select_dish p dt mt (filterFoods df p mt) wk 2
      with ⟨o, bd'⟩
    cases o with
    | none => simp [occD]
    | some row =>
      have hlt : getAL wk row.dishName 0 < 2 :=
        select_some_weekly_lt bd p dt mt (filterFoods df p mt) wk 2 row
          (by rw [hsel])
      simp only [occD, mkMealEntry]
      by_cases hD : row.dishName = D
      · subst hD
        rw [getAL_insert_self]
        simp
        omega
      · rw [getAL_insert_ne _ _ _ hD]
        simp only [if_neg hD]
        omega

/-- Slot lists accumulate occurrences of `D` into the weekly count. -/
theorem planSlots_count (df : List Row) (p : UserProfile)
    (dt : MacroTargets) (D : String) :
    ∀ (mts : List String) (st : PlanState),
      getAL (planSlots df p dt st mts).2.2 D 0 =
        getAL st.2 D 0 +
          ((planSlots df p dt st mts).1.map fun s => occD D s.2).sum ∧
        (getAL st.2 D 0 ≤ 2 →
          getAL (planSlots df p dt st mts).2.2 D 0 ≤ 2) := by
  intro mts
  induction mts with
  | nil => intro st; simp [planSlots]
  | cons mt rest ih =>
    intro st
    rcases hps : planSlot df p dt st mt with ⟨e, st'⟩
    rcases hps2 : planSlots df p dt st' rest with ⟨ms, st2⟩
    have hc := planSlot_count df p dt st mt D
    rw [hps] at hc
    have ih' := ih st'
    rw [hps2] at ih'
    simp only [planSlots, hps, hps2, List.map_cons, List.sum_cons]
    obtain ⟨hc1, hc2⟩ := hc
    obtain ⟨ih1, ih2⟩ := ih'
    simp only at hc1 hc2 ih1 ih2
    constructor
    · rw [ih1, hc1]
      omega
    · intro hb
      exact ih2 (hc2 hb)

/-- Days accumulate occurrences of `D` into the weekly count, which never
    exceeds 2. -/
theorem planDays_count (df : List Row) (p : UserProfile)
    (dt : MacroTargets) (D : String) :
    ∀ (idxs : List ℕ) (st : PlanState),
      getAL (planDays df p dt st idxs).2.2 D 0 =
        getAL st.2 D 0 + ((planDays df p dt st idxs).1.map
          fun dp => (dp.meals.map fun s => occD D s.2).sum).sum ∧
        (getAL st.2 D 0 ≤ 2 →
          getAL (planDays df p dt st idxs).2.2 D 0 ≤ 2) := by
  intro idxs
  induction idxs with
  | nil => intro st; simp [planDays]
  | cons i rest ih =>
    intro st
    rcases hps : planSlots df p dt st MEAL_ORDER with ⟨ms, st1⟩
    rcases hpd2 : planDays df p dt st1 rest with ⟨ds, st2⟩
    have hc := planSlots_count df p dt D MEAL_ORDER st
    rw [hps] at hc
    have ih' := ih st1
    rw [hpd2] at ih'
    simp only [planDays, planDay, hps, hpd2, List.map_cons, List.sum_cons]
    obtain ⟨hc1, hc2⟩ := hc
    obtain ⟨ih1, ih2⟩ := ih'
    simp only at hc1 hc2 ih1 ih2
    constructor
    · rw [ih1, hc1]
      omega
    · intro hb
      exact ih2 (hc2 hb)

/-- C3: in one `generate_weekly_plan` call no dish name occurs more than
    2 = `max_per_week` times among the 28 slot entries: `select_dish` skips
    candidates whose running weekly count reached the cap, and the planner
    bumps the count exactly once per selected dish. -/
theorem c3_weekly_cap (df : List Row) (bd : LinUCBBandit) (p : UserProfile)
    (D : String) :
    countDish D (generate_weekly_plan df bd p).1 ≤ 2 := by
  rcases hpd : planDays df p (compute_macro_targets p) (bd, [])
    (List.range 7) with ⟨days, stF⟩
  have hc := planDays_count df p (compute_macro_targets p) D (List.range 7)
    (bd, [])
  rw [hpd] at hc
  obtain ⟨h1, h2⟩ := hc
  simp only at h1 h2
  simp only [countDish, generate_weekly_plan, hpd]
  have h0 : getAL ([] : List (String × ℕ)) D 0 = 0 := rfl
  rw [h0] at h1 h2
  have h2' := h2 (by omega)
  omega

end NutriAI
